import Mathlib

/-!
Verification of the terraform-provider-notion marshalling core.

The Go source is shallowly embedded: Go strings become `List Char`
(`Str`) where character-level scanning matters and `String` elsewhere;
Go pointers become `Option`; fallible functions return `Except`.
Definitions follow the corresponding Go functions in
`internal/provider` statement by statement.
-/

namespace Notion

/-- Go strings, viewed as character sequences (sufficient for the ASCII
identifiers, separators and markdown delimiters this provider handles). -/
abbrev Str := List Char

/-! ## Rich-text data model (notionapi.RichText, as used by helpers.go) -/

/-- notionapi.Link: the hyperlink target attached to a text fragment. -/
structure Link where
  url : Str
deriving Repr, DecidableEq

/-- notionapi.Text: text content plus an optional link annotation. -/
structure TextObj where
  content : Str
  link : Option Link := none
deriving Repr, DecidableEq

/-- notionapi.RichText, restricted to the fields this provider touches:
the `text` payload (nil-able in Go, hence `Option`) and the server-set
`plain_text` field.  `plainToRichText` builds segments with `plain_text`
left at its zero value (the empty string), exactly as the Go code does. -/
structure RichText where
  text : Option TextObj := none
  plainText : Str := []
deriving Repr, DecidableEq

/-- One segment's contribution to `richTextToPlain` (helpers.go): a
segment whose text has a non-empty link URL is re-wrapped as
`[plain_text](url)`; any other segment contributes `plain_text` bare. -/
def richTextSegToPlain (r : RichText) : Str :=
  match r.text with
  | some t =>
    match t.link with
    | some l =>
      if l.url ≠ [] then '[' :: (r.plainText ++ ']' :: '(' :: (l.url ++ [')']))
      else r.plainText
    | none => r.plainText
  | none => r.plainText

/-- helpers.go `richTextToPlain`: concatenates the segments'
contributions in order. -/
def richTextToPlain (rt : List RichText) : Str :=
  (rt.map richTextSegToPlain).flatten

/-- The display-text candidate at a position: the run of characters
other than a closing bracket that follows the opening bracket. -/
def mdDisp (l : Str) : Str := (l.drop 1).takeWhile (fun x => x ≠ ']')

/-- What remains of the input after the display run. -/
def mdRest1 (l : Str) : Str := (l.drop 1).dropWhile (fun x => x ≠ ']')

/-- The URL candidate: the run of characters other than a closing
parenthesis that follows the closing-bracket/opening-parenthesis pair. -/
def mdUrl (l : Str) : Str := ((mdRest1 l).drop 2).takeWhile (fun x => x ≠ ')')

/-- What remains of the input after the URL run. -/
def mdRest3 (l : Str) : Str := ((mdRest1 l).drop 2).dropWhile (fun x => x ≠ ')')

/-- helpers.go `mdLinkRe` matched at the start of `l`.  The Go regexp
is an opening bracket, then one or more characters other than a closing
bracket (the display text), a closing bracket, an opening parenthesis,
one or more characters other than a closing parenthesis (the URL), and
a closing parenthesis.  Because each character class excludes its own
delimiter there is no backtracking: the display run ends at the first
closing bracket and the URL run at the first closing parenthesis, and
the match at a given position is unique.  The guard states exactly this
shape; on success returns (display, url, rest-after-the-match). -/
def mdLinkMatch (l : Str) : Option (Str × Str × Str) :=
  if l.take 1 = ['['] ∧ mdDisp l ≠ [] ∧ (mdRest1 l).take 2 = [']', '(']
      ∧ mdUrl l ≠ [] ∧ (mdRest3 l).take 1 = [')'] then
    some (mdDisp l, mdUrl l, (mdRest3 l).drop 1)
  else none

/-- A plain (unlinked) segment, as helpers.go builds it. -/
def plainSeg (content : Str) : RichText :=
  { text := some { content := content } }

/-- A linked segment, as helpers.go builds it from a regexp match. -/
def linkSeg (display url : Str) : RichText :=
  { text := some { content := display, link := some { url := url } } }

/-- The left-to-right, leftmost-first, non-overlapping scan performed by
Go's `mdLinkRe.FindAllStringSubmatchIndex` together with the segment
construction loop of helpers.go `plainToRichText`: `acc` is the pending
plain text between the previous match (or the start) and the cursor. -/
def scanRichText (acc : Str) (l : Str) : List RichText :=
  match l with
  | [] => if acc = [] then [] else [plainSeg acc]
  | c :: cs =>
    match hm : mdLinkMatch (c :: cs) with
    | some (d, u, rest) =>
      (if acc = [] then [] else [plainSeg acc]) ++
        linkSeg d u :: scanRichText [] rest
    | none => scanRichText (acc ++ [c]) cs
termination_by l.length
decreasing_by
  · unfold mdLinkMatch at hm
    split at hm
    case isTrue =>
      simp only [Option.some.injEq, Prod.mk.injEq] at hm
      obtain ⟨-, -, hr⟩ := hm
      have b1 : (mdRest3 (c :: cs)).length ≤ ((mdRest1 (c :: cs)).drop 2).length :=
        (List.dropWhile_suffix _).sublist.length_le
      have b2 : (mdRest1 (c :: cs)).length ≤ ((c :: cs).drop 1).length :=
        (List.dropWhile_suffix _).sublist.length_le
      have b3 : rest.length ≤ (mdRest3 (c :: cs)).length := by
        rw [← hr]
        simp [List.length_drop]
      simp only [List.length_drop, List.length_cons] at b1 b2 b3 ⊢
      omega
    case isFalse => exact absurd hm (by simp)
  · simp

/-- helpers.go `plainToRichText`: when the regexp finds no match the
whole input becomes a single unlinked segment (also when the input is
empty); otherwise the scan produces alternating plain and linked
segments. -/
def plainToRichText (t : Str) : List RichText :=
  if t = [] then [plainSeg []] else scanRichText [] t

/-- Whether the regexp matches anywhere in the input (Go:
`len(mdLinkRe.FindAllStringSubmatchIndex(text, -1)) == 0` is the
negation). -/
def hasMdLink : Str → Bool
  | [] => false
  | c :: cs => (mdLinkMatch (c :: cs)).isSome || hasMdLink cs

/-- The Notion API (an external collaborator of this provider)
populates each echoed rich text segment's `plain_text` with the
segment's rendered text, which for locally built text segments is the
text content.  Segments built by `plainToRichText` leave `plain_text`
at its zero value until the API echoes them back. -/
def withPlainText (r : RichText) : RichText :=
  { r with
    plainText :=
      match r.text with
      | some t => t.content
      | none => r.plainText }

/-- A segment's text content alone; linked segments contribute their
display text. -/
def segContent (r : RichText) : Str :=
  match r.text with
  | some tx => tx.content
  | none => []

/-- A segment's text content with link markup restored: a linked
segment renders as `[content](url)`, an unlinked one as bare content. -/
def segContentMD (r : RichText) : Str :=
  match r.text with
  | some tx =>
    match tx.link with
    | some l => '[' :: (tx.content ++ ']' :: '(' :: (l.url ++ [')']))
    | none => tx.content
  | none => []

/-! ## Composite import keys (resource_database_property.go) -/

/-- The split performed by Go `strings.SplitN(id, "/", 2)` when viewed
through `parseCompositeID`: the characters before the first separator
and the characters after it, or `none` when the separator is absent (in
which case `SplitN` produces a single part and the length check
fails). -/
def splitFirst (sep : Char) : Str → Option (Str × Str)
  | [] => none
  | c :: cs =>
    if c = sep then some ([], cs)
    else (splitFirst sep cs).map (fun p => (c :: p.1, p.2))

/-- resource_database_property.go `parseCompositeID`: splits a
composite ID of the form database_id/property_name on the first slash
only; an input with no slash is rejected with a format error. -/
def parseCompositeID (id : Str) : Except String (Str × Str) :=
  match splitFirst '/' id with
  | some (databaseId, propertyName) => .ok (databaseId, propertyName)
  | none =>
    .error ("expected composite ID in format database_id/property_name, got: "
      ++ String.mk id)

/-! ## Enum validators (validators.go) -/

/-- terraform-plugin-framework `types.String` as the validators and
resource models observe it: null, unknown, or a known value.
`ValueString()` returns the empty string for null and unknown. -/
inductive TFString where
  | null
  | unknown
  | val (s : String)
deriving Repr, DecidableEq

def TFString.valueString : TFString → String
  | .val s => s
  | _ => ""

def TFString.isNull : TFString → Bool
  | .null => true
  | _ => false

def TFString.isUnknown : TFString → Bool
  | .unknown => true
  | _ => false

/-- validators.go `validColors`. -/
def validColors : List String :=
  ["default", "gray", "brown", "orange", "yellow",
   "green", "blue", "purple", "pink", "red"]

/-- validators.go `validNumberFormats`. -/
def validNumberFormats : List String :=
  ["number", "number_with_commas", "percent", "dollar",
   "canadian_dollar", "euro", "pound", "yen", "ruble",
   "rupee", "won", "yuan", "real", "lira", "rupiah",
   "franc", "hong_kong_dollar", "new_zealand_dollar",
   "krona", "norwegian_krone", "mexican_peso",
   "rand", "new_taiwan_dollar", "danish_krone",
   "zloty", "baht", "forint", "koruna", "shekel",
   "chilean_peso", "philippine_peso", "dirham",
   "colombian_peso", "riyal", "ringgit", "leu",
   "argentine_peso", "uruguayan_peso", "singapore_dollar"]

/-- validators.go `validRollupFunctions`. -/
def validRollupFunctions : List String :=
  ["count_all", "count_values", "count_unique_values",
   "count_empty", "count_not_empty",
   "percent_empty", "percent_not_empty",
   "sum", "average", "median",
   "min", "max", "range"]

/-- The diagnostic text shared by the three validators:
`fmt.Sprintf("Expected one of: %s, got: %s", strings.Join(valid, ", "), val)`. -/
def enumErrMsg (valid : List String) (val : String) : String :=
  "Expected one of: " ++ String.intercalate ", " valid ++ ", got: " ++ val

/-- The shared `ValidateString` body of colorValidator,
numberFormatValidator and rollupFunctionValidator (validators.go):
null/unknown values pass; a known value passes iff it is in the valid
set, otherwise an attribute error carrying the whole accepted set is
added.  Returns the diagnostic message, `none` meaning none was
added. -/
def enumValidate (valid : List String) (v : TFString) : Option String :=
  if v.isNull || v.isUnknown then none
  else if valid.contains v.valueString then none
  else some (enumErrMsg valid v.valueString)

/-- colorValidator.ValidateString. -/
def colorValidate : TFString → Option String := enumValidate validColors

/-- numberFormatValidator.ValidateString. -/
def numberFormatValidate : TFString → Option String :=
  enumValidate validNumberFormats

/-- rollupFunctionValidator.ValidateString. -/
def rollupFunctionValidate : TFString → Option String :=
  enumValidate validRollupFunctions

/-! ## Date formatting (resource_database_entry.go, datasource listing) -/

/-- A Go `time.Time` as the date helpers observe it: the wall-clock
fields in the value's own location — `Hour()`, `Minute()`, `Second()`,
`Nanosecond()` and the date components all report wall-clock values —
plus the location's UTC offset in minutes, which only the `Format` zone
directive reads.  The underlying instant is the wall clock shifted back
by the offset. -/
structure GoTime where
  year : Nat
  month : Nat
  day : Nat
  hour : Nat
  minute : Nat
  second : Nat
  nanosecond : Nat
  offsetMinutes : Int
deriving Repr, DecidableEq

/-- Go format directives 01/02/15/04/05: zero-pad to two digits. -/
def pad2 (n : Nat) : String :=
  if n < 10 then "0" ++ toString n else toString n

/-- Go format directive 2006: zero-pad the year to four digits. -/
def pad4 (n : Nat) : String :=
  if n < 10 then "000" ++ toString n
  else if n < 100 then "00" ++ toString n
  else if n < 1000 then "0" ++ toString n
  else toString n

/-- `t.Format("2006-01-02")`. -/
def formatDateOnly (t : GoTime) : String :=
  pad4 t.year ++ "-" ++ pad2 t.month ++ "-" ++ pad2 t.day

/-- The Z07:00 zone directive: "Z" when the offset is zero, otherwise
a signed hh:mm offset. -/
def formatZone (offsetMinutes : Int) : String :=
  if offsetMinutes = 0 then "Z"
  else (if offsetMinutes < 0 then "-" else "+")
    ++ pad2 (offsetMinutes.natAbs / 60) ++ ":" ++ pad2 (offsetMinutes.natAbs % 60)

/-- `t.Format(time.RFC3339)`, layout 2006-01-02T15:04:05Z07:00 (no
fractional seconds: the nanosecond field never reaches the output). -/
def formatRFC3339 (t : GoTime) : String :=
  formatDateOnly t ++ "T" ++ pad2 t.hour ++ ":" ++ pad2 t.minute ++ ":"
    ++ pad2 t.second ++ formatZone t.offsetMinutes

/-- resource_database_entry.go `formatNotionDate`: a bare date when the
wall-clock time components are all zero, full RFC3339 otherwise. -/
def formatNotionDate (t : GoTime) : String :=
  if t.hour = 0 ∧ t.minute = 0 ∧ t.second = 0 ∧ t.nanosecond = 0 then
    formatDateOnly t
  else formatRFC3339 t

/-- notionapi.DateObject: nil-able start and end instants. -/
structure DateObject where
  start : Option GoTime := none
  finish : Option GoTime := none
deriving Repr, DecidableEq

/-- The date arm of the entries listing `propertyToString`
(datasource_database_entries.go): the start instant always renders in
full RFC3339 when present, the empty string otherwise — there is no
midnight special case on this path. -/
def propertyToStringDate (date : Option DateObject) : String :=
  match date with
  | some d =>
    match d.start with
    | some t => formatRFC3339 t
    | none => ""
  | none => ""

/-- Midnight UTC as the claim states it: the instant's UTC clock reads
00:00:00.0.  The UTC time of day is the wall-clock time of day shifted
back by the location's offset. -/
def isMidnightUTC (t : GoTime) : Prop :=
  ((t.hour * 3600 + t.minute * 60 + t.second : Int) - t.offsetMinutes * 60) % 86400 = 0
    ∧ t.nanosecond = 0

instance (t : GoTime) : Decidable (isMidnightUTC t) := by
  unfold isMidnightUTC
  infer_instance

/-! ## Block resource model and update-request construction
(resource_block.go) -/

/-- terraform-plugin-framework `types.Bool`; `ValueBool()` is false for
null and unknown. -/
inductive TFBool where
  | null
  | unknown
  | val (b : Bool)
deriving Repr, DecidableEq

def TFBool.valueBool : TFBool → Bool
  | .val b => b
  | _ => false

/-- BlockResourceModel: the flat schema model of the block resource. -/
structure BlockResourceModel where
  id : TFString := .null
  parentID : TFString := .null
  type : TFString := .null
  after : TFString := .null
  hasChildren : TFBool := .null
  richText : TFString := .null
  color : TFString := .null
  isToggleable : TFBool := .null
  checked : TFBool := .null
  icon : TFString := .null
  language : TFString := .null
  caption : TFString := .null
  url : TFString := .null
  expression : TFString := .null
  syncedFrom : TFString := .null
deriving Repr, DecidableEq

/-- `plainToRichText` applied to a framework string value. -/
def plainToRichTextS (s : String) : List RichText :=
  plainToRichText s.data

/-- `richTextToPlain` producing a framework string value. -/
def richTextToPlainS (rt : List RichText) : String :=
  String.mk (richTextToPlain rt)

/-! notionapi block payloads, restricted to the fields the provider
populates or reads. -/

structure Paragraph where
  richText : List RichText
  color : String
deriving Repr, DecidableEq

structure Heading where
  richText : List RichText
  color : String
  isToggleable : Bool
deriving Repr, DecidableEq

structure ListItem where
  richText : List RichText
  color : String
deriving Repr, DecidableEq

structure ToDo where
  richText : List RichText
  checked : Bool
  color : String
deriving Repr, DecidableEq

structure Icon where
  type : String
  emoji : Option String := none
deriving Repr, DecidableEq

structure Callout where
  richText : List RichText
  icon : Option Icon := none
  color : String
deriving Repr, DecidableEq

structure Code where
  richText : List RichText
  caption : List RichText := []
  language : String
deriving Repr, DecidableEq

structure EquationPayload where
  expression : String
deriving Repr, DecidableEq

structure Bookmark where
  caption : List RichText := []
  url : String
deriving Repr, DecidableEq

structure EmbedPayload where
  url : String
deriving Repr, DecidableEq

structure FileObject where
  url : String
deriving Repr, DecidableEq

structure Image where
  type : String
  external : Option FileObject := none
  caption : List RichText := []
deriving Repr, DecidableEq

/-- notionapi.BlockUpdateRequest: one optional payload per mutable
kind; exactly one is populated by buildBlockUpdateRequest. -/
structure BlockUpdateRequest where
  paragraph : Option Paragraph := none
  heading1 : Option Heading := none
  heading2 : Option Heading := none
  heading3 : Option Heading := none
  bulletedListItem : Option ListItem := none
  numberedListItem : Option ListItem := none
  toDo : Option ToDo := none
  toggle : Option ListItem := none
  quote : Option ListItem := none
  callout : Option Callout := none
  code : Option Code := none
  equation : Option EquationPayload := none
  bookmark : Option Bookmark := none
  embed : Option EmbedPayload := none
  image : Option Image := none
deriving Repr, DecidableEq

/-- resource_block.go `buildBlockUpdateRequest`: dispatches on the
model's block type string; the five structural kinds reject updates,
unknown kinds are unsupported, and every other kind populates its
payload from the model fields (code/bookmark/image attach a caption
whenever the caption attribute is neither null nor unknown; callout
attaches an emoji icon when the icon attribute is known and
non-empty). -/
def buildBlockUpdateRequest (plan : BlockResourceModel) :
    Except String BlockUpdateRequest :=
  let blockType := plan.type.valueString
  if blockType = "paragraph" then
    .ok { paragraph := some { richText := plainToRichTextS plan.richText.valueString,
                              color := plan.color.valueString } }
  else if blockType = "heading_1" then
    .ok { heading1 := some { richText := plainToRichTextS plan.richText.valueString,
                             color := plan.color.valueString,
                             isToggleable := plan.isToggleable.valueBool } }
  else if blockType = "heading_2" then
    .ok { heading2 := some { richText := plainToRichTextS plan.richText.valueString,
                             color := plan.color.valueString,
                             isToggleable := plan.isToggleable.valueBool } }
  else if blockType = "heading_3" then
    .ok { heading3 := some { richText := plainToRichTextS plan.richText.valueString,
                             color := plan.color.valueString,
                             isToggleable := plan.isToggleable.valueBool } }
  else if blockType = "bulleted_list_item" then
    .ok { bulletedListItem := some { richText := plainToRichTextS plan.richText.valueString,
                                     color := plan.color.valueString } }
  else if blockType = "numbered_list_item" then
    .ok { numberedListItem := some { richText := plainToRichTextS plan.richText.valueString,
                                     color := plan.color.valueString } }
  else if blockType = "to_do" then
    .ok { toDo := some { richText := plainToRichTextS plan.richText.valueString,
                         checked := plan.checked.valueBool,
                         color := plan.color.valueString } }
  else if blockType = "toggle" then
    .ok { toggle := some { richText := plainToRichTextS plan.richText.valueString,
                           color := plan.color.valueString } }
  else if blockType = "quote" then
    .ok { quote := some { richText := plainToRichTextS plan.richText.valueString,
                          color := plan.color.valueString } }
  else if blockType = "callout" then
    let callout : Callout := { richText := plainToRichTextS plan.richText.valueString,
                               color := plan.color.valueString }
    let callout :=
      if plan.icon.isNull = false ∧ plan.icon.isUnknown = false
          ∧ plan.icon.valueString ≠ "" then
        { callout with icon := some { type := "emoji", emoji := some plan.icon.valueString } }
      else callout
    .ok { callout := some callout }
  else if blockType = "code" then
    let code : Code := { richText := plainToRichTextS plan.richText.valueString,
                         language := plan.language.valueString }
    let code :=
      if plan.caption.isNull = false ∧ plan.caption.isUnknown = false then
        { code with caption := plainToRichTextS plan.caption.valueString }
      else code
    .ok { code := some code }
  else if blockType = "equation" then
    .ok { equation := some { expression := plan.expression.valueString } }
  else if blockType = "bookmark" then
    let bm : Bookmark := { url := plan.url.valueString }
    let bm :=
      if plan.caption.isNull = false ∧ plan.caption.isUnknown = false then
        { bm with caption := plainToRichTextS plan.caption.valueString }
      else bm
    .ok { bookmark := some bm }
  else if blockType = "embed" then
    .ok { embed := some { url := plan.url.valueString } }
  else if blockType = "image" then
    let img : Image := { type := "external",
                         external := some { url := plan.url.valueString } }
    let img :=
      if plan.caption.isNull = false ∧ plan.caption.isUnknown = false then
        { img with caption := plainToRichTextS plan.caption.valueString }
      else img
    .ok { image := some img }
  else if blockType = "divider" ∨ blockType = "table_of_contents"
      ∨ blockType = "synced_block" ∨ blockType = "column_list"
      ∨ blockType = "column" then
    .error ("block type \"" ++ blockType ++ "\" does not support updates")
  else
    .error ("unsupported block type: " ++ blockType)

/-- The five structural kinds with no update path. -/
def immutableBlockKinds : List String :=
  ["divider", "table_of_contents", "synced_block", "column_list", "column"]

/-- The kinds buildBlockUpdateRequest can update in place. -/
def mutableBlockKinds : List String :=
  ["paragraph", "heading_1", "heading_2", "heading_3",
   "bulleted_list_item", "numbered_list_item", "to_do", "toggle",
   "quote", "callout", "code", "equation", "bookmark", "embed", "image"]

/-! ## Raw listing property rendering (datasource_database_entries.go) -/

structure RawOption where
  name : String
deriving Repr, DecidableEq

structure RawUser where
  name : String := ""
  id : String := ""
deriving Repr, DecidableEq

structure RawRelation where
  id : String
deriving Repr, DecidableEq

/-- rawDate: the listing path keeps the start/end timestamps as the
verbatim strings the API sent. -/
structure RawDate where
  start : String
  finish : String := ""
deriving Repr, DecidableEq

structure RawFormula where
  type : String
  stringVal : String := ""
  number : Option Rat := none
  boolean : Option Bool := none
  date : Option RawDate := none
deriving Repr, DecidableEq

structure RawRollup where
  type : String
  number : Option Rat := none
  date : Option RawDate := none
deriving Repr, DecidableEq

structure RawUniqueID where
  pfx : Option String := none
  number : Int := 0
deriving Repr, DecidableEq

structure RawFile where
  name : String
deriving Repr, DecidableEq

structure RawRichTextSeg where
  plainText : String
deriving Repr, DecidableEq

/-- rawProperty: the manually parsed JSON property value.  The
`title`/`rich_text` payloads are json.RawMessage in Go; `none` stands
for an absent or unparseable message, `some` for a parsed segment
list.  Go float64 values appear as `Rat`. -/
structure RawProperty where
  type : String
  title : Option (List RawRichTextSeg) := none
  richText : Option (List RawRichTextSeg) := none
  number : Option Rat := none
  select : Option RawOption := none
  multiSelect : List RawOption := []
  date : Option RawDate := none
  checkbox : Option Bool := none
  url : Option String := none
  email : Option String := none
  phoneNumber : Option String := none
  people : List RawUser := []
  relation : List RawRelation := []
  formula : Option RawFormula := none
  rollup : Option RawRollup := none
  status : Option RawOption := none
  uniqueId : Option RawUniqueID := none
  createdTime : Option String := none
  createdBy : Option RawUser := none
  lastEditedTime : Option String := none
  lastEditedBy : Option RawUser := none
  files : List RawFile := []
deriving Repr, DecidableEq

/-- extractRichText: concatenates the parsed segments' plain_text;
a nil or unparseable message yields the empty string. -/
def extractRichText (raw : Option (List RawRichTextSeg)) : String :=
  match raw with
  | none => ""
  | some segs => String.join (segs.map (fun t => t.plainText))

/-- Stand-in for Go `fmt.Sprintf("%g", f)` on a float64 (standard
library behaviour, external to this repository); no claim depends on
the digits it renders, only on which arm renders them. -/
def sprintfG (n : Rat) : String := toString n

/-- datasource_database_entries.go `rawPropertyToString`: renders one
property value for the listing.  Dispatches on the type tag; list kinds
join with ", "; nil inner payloads collapse to "" (checkbox to
"false"); unknown type tags fall through to "". -/
def rawPropertyToString (prop : RawProperty) : String :=
  if prop.type = "title" then extractRichText prop.title
  else if prop.type = "rich_text" then extractRichText prop.richText
  else if prop.type = "number" then
    match prop.number with
    | some n => sprintfG n
    | none => ""
  else if prop.type = "select" then
    match prop.select with
    | some o => o.name
    | none => ""
  else if prop.type = "multi_select" then
    String.intercalate ", " (prop.multiSelect.map (fun o => o.name))
  else if prop.type = "date" then
    match prop.date with
    | some d => d.start
    | none => ""
  else if prop.type = "checkbox" then
    match prop.checkbox with
    | some b => if b then "true" else "false"
    | none => "false"
  else if prop.type = "url" then
    match prop.url with
    | some u => u
    | none => ""
  else if prop.type = "email" then
    match prop.email with
    | some e => e
    | none => ""
  else if prop.type = "phone_number" then
    match prop.phoneNumber with
    | some p => p
    | none => ""
  else if prop.type = "people" then
    String.intercalate ", " (prop.people.map (fun u => u.name))
  else if prop.type = "relation" then
    String.intercalate ", " (prop.relation.map (fun r => r.id))
  else if prop.type = "created_time" then
    match prop.createdTime with
    | some t => t
    | none => ""
  else if prop.type = "created_by" then
    match prop.createdBy with
    | some u => u.name
    | none => ""
  else if prop.type = "last_edited_time" then
    match prop.lastEditedTime with
    | some t => t
    | none => ""
  else if prop.type = "last_edited_by" then
    match prop.lastEditedBy with
    | some u => u.name
    | none => ""
  else if prop.type = "status" then
    match prop.status with
    | some o => o.name
    | none => ""
  else if prop.type = "unique_id" then
    match prop.uniqueId with
    | some uid =>
      match uid.pfx with
      | some p =>
        if p ≠ "" then p ++ "-" ++ toString uid.number else toString uid.number
      | none => toString uid.number
    | none => ""
  else if prop.type = "formula" then
    match prop.formula with
    | some f =>
      if f.type = "string" then f.stringVal
      else if f.type = "number" then
        match f.number with
        | some n => sprintfG n
        | none => ""
      else if f.type = "boolean" then
        match f.boolean with
        | some b => if b then "true" else "false"
        | none => ""
      else if f.type = "date" then
        match f.date with
        | some d => d.start
        | none => ""
      else ""
    | none => ""
  else if prop.type = "rollup" then
    match prop.rollup with
    | some r =>
      if r.type = "number" then
        match r.number with
        | some n => sprintfG n
        | none => ""
      else if r.type = "date" then
        match r.date with
        | some d => d.start
        | none => ""
      else ""
    | none => ""
  else if prop.type = "files" then
    String.intercalate ", " (prop.files.map (fun f => f.name))
  else ""

/-- The type tags rawPropertyToString recognizes. -/
def recognizedRawTypes : List String :=
  ["title", "rich_text", "number", "select", "multi_select", "date",
   "checkbox", "url", "email", "phone_number", "people", "relation",
   "created_time", "created_by", "last_edited_time", "last_edited_by",
   "status", "unique_id", "formula", "rollup", "files"]

/-! ## Database entry model, removed-key clearing
(resource_database_entry.go) -/

/-- terraform-plugin-framework `types.Map` with element type α: null,
unknown, or a known map.  Known maps are modelled as key-value lists;
Go map iteration order is irrelevant to every property proved here.
`Elements()` is empty for null and unknown maps. -/
inductive TFValMap (α : Type) where
  | null
  | unknown
  | val (elements : List (String × α))
deriving Repr, DecidableEq

def TFValMap.isNull : TFValMap α → Bool
  | .null => true
  | _ => false

def TFValMap.isUnknown : TFValMap α → Bool
  | .unknown => true
  | _ => false

def TFValMap.elements : TFValMap α → List (String × α)
  | .val es => es
  | _ => []

def TFValMap.keys (m : TFValMap α) : List String :=
  m.elements.map Prod.fst

/-- resource_database_entry.go `removedKeys`: keys present in the state
map and absent from the plan map.  A null or unknown state map yields
nothing; a null or unknown plan map leaves every state key removed. -/
def removedKeys (stateMap planMap : TFValMap α) : List String :=
  match stateMap with
  | .val stateElems =>
    let planElems := match planMap with
      | .val p => p
      | _ => ([] : List (String × α))
    (stateElems.map Prod.fst).filter
      (fun k => !(planElems.map Prod.fst).contains k)
  | _ => []

/-- notionapi property values as the entry resource builds and reads
them; `otherProp` stands for every SDK kind whose type assertion the
entry resource does not attempt. -/
inductive NotionProperty where
  | titleProp (title : List RichText)
  | richTextProp (richText : List RichText)
  | numberProp (number : Rat)
  | checkboxProp (checkbox : Bool)
  | selectProp (name : String)
  | statusProp (name : String)
  | urlProp (url : String)
  | emailProp (email : String)
  | phoneNumberProp (phoneNumber : String)
  | dateProp (date : Option DateObject)
  | otherProp
deriving Repr, DecidableEq

/-- notionapi.Properties: the request/response property map. -/
abbrev NotionProperties := List (String × NotionProperty)

/-- Go map assignment `props[name] = v`. -/
def propsSet (m : NotionProperties) (k : String) (v : NotionProperty) :
    NotionProperties :=
  if m.any (fun e => e.1 == k) then
    m.map (fun e => if e.1 == k then (k, v) else e)
  else m ++ [(k, v)]

/-- Go map read `props[name]`. -/
def propsGet (m : NotionProperties) (k : String) : Option NotionProperty :=
  (m.find? (fun e => e.1 == k)).map Prod.snd

/-- DatabaseEntryResourceModel: the flat entry model with one typed
value bucket per supported kind. -/
structure DatabaseEntryResourceModel where
  id : TFString := .null
  database : TFString := .null
  title : TFString := .null
  url : TFString := .null
  richTextProperties : TFValMap String := .null
  numberProperties : TFValMap Rat := .null
  checkboxProperties : TFValMap Bool := .null
  selectProperties : TFValMap String := .null
  statusProperties : TFValMap String := .null
  urlProperties : TFValMap String := .null
  emailProperties : TFValMap String := .null
  phoneNumberProperties : TFValMap String := .null
  dateProperties : TFValMap String := .null
deriving Repr, DecidableEq

/-- The nine value buckets, in the order of the clearRemovedProperties
loops. -/
inductive EntryBucket where
  | richTextB | numberB | checkboxB | selectB | statusB
  | urlB | emailB | phoneNumberB | dateB
deriving Repr, DecidableEq

/-- The key set a bucket holds in a model. -/
def entryBucketKeys (m : DatabaseEntryResourceModel) : EntryBucket → List String
  | .richTextB => m.richTextProperties.keys
  | .numberB => m.numberProperties.keys
  | .checkboxB => m.checkboxProperties.keys
  | .selectB => m.selectProperties.keys
  | .statusB => m.statusProperties.keys
  | .urlB => m.urlProperties.keys
  | .emailB => m.emailProperties.keys
  | .phoneNumberB => m.phoneNumberProperties.keys
  | .dateB => m.dateProperties.keys

/-- The explicit empty/default value each loop of clearRemovedProperties
sends for its bucket: empty rich-text list, 0 number, false checkbox,
empty option (select and status), empty string (url, email, phone) and
nil date. -/
def entryBucketDefault : EntryBucket → NotionProperty
  | .richTextB => .richTextProp []
  | .numberB => .numberProp 0
  | .checkboxB => .checkboxProp false
  | .selectB => .selectProp ""
  | .statusB => .statusProp ""
  | .urlB => .urlProp ""
  | .emailB => .emailProp ""
  | .phoneNumberB => .phoneNumberProp ""
  | .dateB => .dateProp none

/-- One loop of clearRemovedProperties: the patch entries emitted for
one bucket. -/
def entryBucketEmissions (state plan : DatabaseEntryResourceModel)
    (b : EntryBucket) : List (String × NotionProperty) :=
  match b with
  | .richTextB =>
    (removedKeys state.richTextProperties plan.richTextProperties).map
      (fun k => (k, entryBucketDefault .richTextB))
  | .numberB =>
    (removedKeys state.numberProperties plan.numberProperties).map
      (fun k => (k, entryBucketDefault .numberB))
  | .checkboxB =>
    (removedKeys state.checkboxProperties plan.checkboxProperties).map
      (fun k => (k, entryBucketDefault .checkboxB))
  | .selectB =>
    (removedKeys state.selectProperties plan.selectProperties).map
      (fun k => (k, entryBucketDefault .selectB))
  | .statusB =>
    (removedKeys state.statusProperties plan.statusProperties).map
      (fun k => (k, entryBucketDefault .statusB))
  | .urlB =>
    (removedKeys state.urlProperties plan.urlProperties).map
      (fun k => (k, entryBucketDefault .urlB))
  | .emailB =>
    (removedKeys state.emailProperties plan.emailProperties).map
      (fun k => (k, entryBucketDefault .emailB))
  | .phoneNumberB =>
    (removedKeys state.phoneNumberProperties plan.phoneNumberProperties).map
      (fun k => (k, entryBucketDefault .phoneNumberB))
  | .dateB =>
    (removedKeys state.dateProperties plan.dateProperties).map
      (fun k => (k, entryBucketDefault .dateB))

/-- All nine buckets in code order. -/
def entryBuckets : List EntryBucket :=
  [.richTextB, .numberB, .checkboxB, .selectB, .statusB,
   .urlB, .emailB, .phoneNumberB, .dateB]

/-- resource_database_entry.go `clearRemovedProperties`: the nine
loops, each assigning its bucket's default value to every removed key
in the outgoing properties map. -/
def clearRemovedProperties (state plan : DatabaseEntryResourceModel)
    (props : NotionProperties) : NotionProperties :=
  ((entryBuckets.map (entryBucketEmissions state plan)).flatten).foldl
    (fun m e => propsSet m e.1 e.2) props

/-! ## Read/Update flows of the tracked resources -/

/-- helpers.go `normalizeID`: strips hyphens. -/
def normalizeID (id : String) : String :=
  String.mk (id.data.filter (fun c => c ≠ '-'))

/-- notionapi.Parent: a plain struct whose unused ID fields stay at
their zero value. -/
structure NotionParent where
  type : String := ""
  pageId : String := ""
  databaseId : String := ""
  blockId : String := ""
deriving Repr, DecidableEq

/-- The kind-specific payload of an inbound block, one constructor per
concrete notionapi block struct the provider reads.  The image payload
carries the URL `Image.GetURL()` resolves (external or file). -/
inductive BlockVariant where
  | paragraph (richText : List RichText) (color : String)
  | heading1 (richText : List RichText) (color : String) (isToggleable : Bool)
  | heading2 (richText : List RichText) (color : String) (isToggleable : Bool)
  | heading3 (richText : List RichText) (color : String) (isToggleable : Bool)
  | bulletedListItem (richText : List RichText) (color : String)
  | numberedListItem (richText : List RichText) (color : String)
  | toDo (richText : List RichText) (checked : Bool) (color : String)
  | toggle (richText : List RichText) (color : String)
  | quote (richText : List RichText) (color : String)
  | callout (richText : List RichText) (icon : Option Icon) (color : String)
  | code (richText : List RichText) (language : String) (caption : List RichText)
  | equation (expression : String)
  | divider
  | tableOfContents (color : String)
  | bookmark (url : String) (caption : List RichText)
  | embed (url : String)
  | image (url : String) (caption : List RichText)
  | syncedBlock (syncedFrom : Option String)
  | columnList
  | column
deriving Repr, DecidableEq

/-- `block.GetType()`: the type tag of the concrete struct. -/
def BlockVariant.typeString : BlockVariant → String
  | .paragraph .. => "paragraph"
  | .heading1 .. => "heading_1"
  | .heading2 .. => "heading_2"
  | .heading3 .. => "heading_3"
  | .bulletedListItem .. => "bulleted_list_item"
  | .numberedListItem .. => "numbered_list_item"
  | .toDo .. => "to_do"
  | .toggle .. => "toggle"
  | .quote .. => "quote"
  | .callout .. => "callout"
  | .code .. => "code"
  | .equation .. => "equation"
  | .divider => "divider"
  | .tableOfContents .. => "table_of_contents"
  | .bookmark .. => "bookmark"
  | .embed .. => "embed"
  | .image .. => "image"
  | .syncedBlock .. => "synced_block"
  | .columnList => "column_list"
  | .column => "column"

/-- Whether the inbound kind carries a synced-source concept. -/
def BlockVariant.isSyncedBlock : BlockVariant → Bool
  | .syncedBlock _ => true
  | _ => false

/-- An inbound block object: the BasicBlock metadata plus the payload. -/
structure ApiBlock where
  id : String
  hasChildren : Bool := false
  archived : Bool := false
  parent : Option NotionParent := none
  variant : BlockVariant
deriving Repr, DecidableEq

/-- The parent-derivation step of readBlockIntoState: page and block
parents set parent_id, anything else leaves it untouched. -/
def readParentIntoState (parent : Option NotionParent)
    (st : BlockResourceModel) : BlockResourceModel :=
  match parent with
  | some p =>
    if p.type = "page_id" then { st with parentID := .val (normalizeID p.pageId) }
    else if p.type = "block_id" then
      { st with parentID := .val (normalizeID p.blockId) }
    else st
  | none => st

/-- The kind-specific step of readBlockIntoState: writes only the
fields the concrete kind carries; all other model fields keep the
caller's prior value. -/
def readVariantIntoState (v : BlockVariant) (st : BlockResourceModel) :
    BlockResourceModel :=
  match v with
  | .paragraph rt color =>
    { st with richText := .val (richTextToPlainS rt), color := .val color }
  | .heading1 rt color tog =>
    { st with
      richText := .val (richTextToPlainS rt)
      color := .val color
      isToggleable := .val tog }
  | .heading2 rt color tog =>
    { st with
      richText := .val (richTextToPlainS rt)
      color := .val color
      isToggleable := .val tog }
  | .heading3 rt color tog =>
    { st with
      richText := .val (richTextToPlainS rt)
      color := .val color
      isToggleable := .val tog }
  | .bulletedListItem rt color =>
    { st with richText := .val (richTextToPlainS rt), color := .val color }
  | .numberedListItem rt color =>
    { st with richText := .val (richTextToPlainS rt), color := .val color }
  | .toDo rt checked color =>
    { st with
      richText := .val (richTextToPlainS rt)
      checked := .val checked
      color := .val color }
  | .toggle rt color =>
    { st with richText := .val (richTextToPlainS rt), color := .val color }
  | .quote rt color =>
    { st with richText := .val (richTextToPlainS rt), color := .val color }
  | .callout rt icon color =>
    let st := { st with
      richText := .val (richTextToPlainS rt)
      color := .val color }
    match icon with
    | some ic =>
      match ic.emoji with
      | some e => { st with icon := .val e }
      | none => st
    | none => st
  | .code rt lang cap =>
    { st with
      richText := .val (richTextToPlainS rt)
      language := .val lang
      caption := .val (richTextToPlainS cap) }
  | .equation expr => { st with expression := .val expr }
  | .divider => st
  | .tableOfContents color => { st with color := .val color }
  | .bookmark url cap =>
    { st with url := .val url, caption := .val (richTextToPlainS cap) }
  | .embed url => { st with url := .val url }
  | .image url cap =>
    { st with url := .val url, caption := .val (richTextToPlainS cap) }
  | .syncedBlock sf =>
    match sf with
    | some bid => { st with syncedFrom := .val (normalizeID bid) }
    | none => st
  | .columnList => st
  | .column => st

/-- resource_block.go `readBlockIntoState`: metadata fields, then the
parent derivation, then the kind-specific fields. -/
def readBlockIntoState (block : ApiBlock) (state : BlockResourceModel) :
    BlockResourceModel :=
  readVariantIntoState block.variant
    (readParentIntoState block.parent
      { state with
        id := .val (normalizeID block.id),
        hasChildren := .val block.hasChildren,
        type := .val block.variant.typeString })

/-- The outcome of a framework Read/Update handler: an error
diagnostic was added, the resource was dropped from tracked state, or
the state was replaced. -/
inductive CrudOutcome (σ : Type) where
  | errored (message : String)
  | removed
  | updated (state : σ)
deriving Repr, DecidableEq

/-- The save-and-restore sequence both BlockResource.Read and
BlockResource.Update inline around readBlockIntoState: the previously
stored insertion marker is restored unconditionally (the API never
echoes it), and the previously stored synced-source reference whenever
the inbound read left the field null or unknown. -/
def blockReadApply (prior : BlockResourceModel) (block : ApiBlock) :
    BlockResourceModel :=
  let after := prior.after
  let syncedFrom := prior.syncedFrom
  let st := readBlockIntoState block prior
  let st := { st with after := after }
  if st.syncedFrom.isNull || st.syncedFrom.isUnknown then
    { st with syncedFrom := syncedFrom }
  else st

/-- BlockResource.Read: fetch errors become diagnostics; an archived
remote block drops the resource from state; otherwise the inbound
block is read into state with the preservation of blockReadApply. -/
def blockRead (state : BlockResourceModel) (api : Except String ApiBlock) :
    CrudOutcome BlockResourceModel :=
  match api with
  | .error e => .errored ("Error reading block: " ++ e)
  | .ok block =>
    if block.archived then .removed
    else .updated (blockReadApply state block)

/-- BlockResource.Update: building the update request can fail before
any network call; a transport failure becomes a diagnostic; otherwise
the server's block is read into the plan with the same preservation as
Read. -/
def blockUpdate (plan : BlockResourceModel) (api : Except String ApiBlock) :
    CrudOutcome BlockResourceModel :=
  match buildBlockUpdateRequest plan with
  | .error e => .errored ("Error building block update: " ++ e)
  | .ok _ =>
    match api with
    | .error e => .errored ("Error updating block: " ++ e)
    | .ok updated => .updated (blockReadApply plan updated)

/-- An inbound page object (pages back both the page resource and the
database entry resource).  Known maps are association lists; the entry
title scan takes the first title property in list order, standing for
Go's map-iteration-with-break (the map holds at most one title property
in practice). -/
structure ApiPage where
  id : String
  url : String := ""
  archived : Bool := false
  parent : NotionParent := {}
  properties : NotionProperties := []
  icon : Option Icon := none
deriving Repr, DecidableEq

/-- PageResourceModel (resource_page.go). -/
structure PageResourceModel where
  id : TFString := .null
  parentPageID : TFString := .null
  title : TFString := .null
  url : TFString := .null
  icon : TFString := .null
deriving Repr, DecidableEq

/-- PageResource.Read: fetch errors become diagnostics; an archived
page drops the resource from state; otherwise the state is refreshed
from the page object. -/
def pageRead (state : PageResourceModel) (api : Except String ApiPage) :
    CrudOutcome PageResourceModel :=
  match api with
  | .error e => .errored ("Error reading page: " ++ e)
  | .ok page =>
    if page.archived then .removed
    else
      let st := { state with
        id := .val (normalizeID page.id)
        url := .val page.url }
      let st :=
        if page.parent.type = "page_id" then
          { st with parentPageID := .val (normalizeID page.parent.pageId) }
        else st
      let st :=
        match propsGet page.properties "title" with
        | some (.titleProp title) =>
          { st with title := .val (richTextToPlainS title) }
        | _ => st
      let st :=
        match page.icon with
        | some ic =>
          match ic.emoji with
          | some e => { st with icon := .val e }
          | none => { st with icon := .val "" }
        | none => { st with icon := .val "" }
      .updated st

/-- A database column configuration as the database resource reads it:
its stable ID and its type tag. -/
structure PropConfig where
  id : String
  type : String
deriving Repr, DecidableEq

/-- An inbound database object. -/
structure ApiDatabase where
  id : String
  title : List RichText := []
  url : String := ""
  archived : Bool := false
  isInline : Bool := false
  description : List RichText := []
  icon : Option Icon := none
  parent : NotionParent := {}
  properties : List (String × PropConfig) := []
deriving Repr, DecidableEq

/-- DatabaseResourceModel (resource_database.go). -/
structure DatabaseResourceModel where
  id : TFString := .null
  parent : TFString := .null
  title : TFString := .null
  titleColumnTitle : TFString := .null
  titleColumnID : TFString := .null
  url : TFString := .null
  isInline : TFBool := .null
  description : TFString := .null
  icon : TFString := .null
deriving Repr, DecidableEq

/-- DatabaseResource.Read: fetch errors become diagnostics; an
archived database drops the resource from state; otherwise the state is
refreshed, the title column being the first title-typed column found
(standing for Go's map-iteration-with-break). -/
def databaseRead (state : DatabaseResourceModel)
    (api : Except String ApiDatabase) : CrudOutcome DatabaseResourceModel :=
  match api with
  | .error e => .errored ("Error reading database: " ++ e)
  | .ok db =>
    if db.archived then .removed
    else
      let st := { state with
        id := .val (normalizeID db.id)
        title := .val (richTextToPlainS db.title)
        url := .val db.url
        isInline := .val db.isInline
        description := .val (richTextToPlainS db.description) }
      let st :=
        match db.icon with
        | some ic =>
          match ic.emoji with
          | some e => { st with icon := .val e }
          | none => { st with icon := .val "" }
        | none => { st with icon := .val "" }
      let st :=
        if db.parent.type = "page_id" then
          { st with parent := .val (normalizeID db.parent.pageId) }
        else st
      let st :=
        match db.properties.find? (fun e => e.2.type == "title") with
        | some (name, prop) =>
          { st with titleColumnTitle := .val name, titleColumnID := .val prop.id }
        | none => st
      .updated st

/-- resource_database_entry.go `readEntryProperties`: every bucket the
state manages (IsNull is false — unknown maps read back as empty value
maps) is rebuilt from the response: a key survives with the response
value when the named property exists and type-asserts to the bucket's
kind, and drops out otherwise.  Dates render through formatNotionDate
and only when both the date object and its start instant are present. -/
def readEntryProperties (page : ApiPage)
    (state : DatabaseEntryResourceModel) : DatabaseEntryResourceModel :=
  let st := state
  let st :=
    if st.richTextProperties.isNull then st
    else
      let vals := st.richTextProperties.elements.filterMap (fun e =>
        match propsGet page.properties e.1 with
        | some (.richTextProp rt) => some (e.1, richTextToPlainS rt)
        | _ => none)
      { st with richTextProperties := .val vals }
  let st :=
    if st.numberProperties.isNull then st
    else
      let vals := st.numberProperties.elements.filterMap (fun e =>
        match propsGet page.properties e.1 with
        | some (.numberProp n) => some (e.1, n)
        | _ => none)
      { st with numberProperties := .val vals }
  let st :=
    if st.checkboxProperties.isNull then st
    else
      let vals := st.checkboxProperties.elements.filterMap (fun e =>
        match propsGet page.properties e.1 with
        | some (.checkboxProp b) => some (e.1, b)
        | _ => none)
      { st with checkboxProperties := .val vals }
  let st :=
    if st.selectProperties.isNull then st
    else
      let vals := st.selectProperties.elements.filterMap (fun e =>
        match propsGet page.properties e.1 with
        | some (.selectProp name) => some (e.1, name)
        | _ => none)
      { st with selectProperties := .val vals }
  let st :=
    if st.statusProperties.isNull then st
    else
      let vals := st.statusProperties.elements.filterMap (fun e =>
        match propsGet page.properties e.1 with
        | some (.statusProp name) => some (e.1, name)
        | _ => none)
      { st with statusProperties := .val vals }
  let st :=
    if st.urlProperties.isNull then st
    else
      let vals := st.urlProperties.elements.filterMap (fun e =>
        match propsGet page.properties e.1 with
        | some (.urlProp u) => some (e.1, u)
        | _ => none)
      { st with urlProperties := .val vals }
  let st :=
    if st.emailProperties.isNull then st
    else
      let vals := st.emailProperties.elements.filterMap (fun e =>
        match propsGet page.properties e.1 with
        | some (.emailProp em) => some (e.1, em)
        | _ => none)
      { st with emailProperties := .val vals }
  let st :=
    if st.phoneNumberProperties.isNull then st
    else
      let vals := st.phoneNumberProperties.elements.filterMap (fun e =>
        match propsGet page.properties e.1 with
        | some (.phoneNumberProp p) => some (e.1, p)
        | _ => none)
      { st with phoneNumberProperties := .val vals }
  let st :=
    if st.dateProperties.isNull then st
    else
      let vals := st.dateProperties.elements.filterMap (fun e =>
        match propsGet page.properties e.1 with
        | some (.dateProp (some dobj)) =>
          match dobj.start with
          | some t => some (e.1, formatNotionDate t)
          | none => none
        | _ => none)
      { st with dateProperties := .val vals }
  st

/-- DatabaseEntryResource.Read: fetch errors become diagnostics; an
archived entry drops the resource from state; otherwise the state is
refreshed, the title coming from the first title property found, and
the managed buckets re-read through readEntryProperties. -/
def entryRead (state : DatabaseEntryResourceModel)
    (api : Except String ApiPage) : CrudOutcome DatabaseEntryResourceModel :=
  match api with
  | .error e => .errored ("Error reading database entry: " ++ e)
  | .ok page =>
    if page.archived then .removed
    else
      let st := { state with
        id := .val (normalizeID page.id)
        url := .val page.url }
      let st :=
        if page.parent.type = "database_id" then
          { st with database := .val (normalizeID page.parent.databaseId) }
        else st
      let st :=
        match page.properties.find?
            (fun e => match e.2 with | .titleProp _ => true | _ => false) with
        | some (_, .titleProp title) =>
          { st with title := .val (richTextToPlainS title) }
        | _ => st
      .updated (readEntryProperties page st)

/-! ## Theorems -/

/-- Reconstruction: a successful match consumed exactly
`[display](url)` from the front of the input. -/
theorem mdLinkMatch_eq {l d u r : Str} (h : mdLinkMatch l = some (d, u, r)) :
    l = '[' :: (d ++ ']' :: '(' :: (u ++ ')' :: r)) ∧ d ≠ [] ∧ u ≠ [] := by
  unfold mdLinkMatch at h
  split at h
  case isFalse => exact absurd h (by simp)
  case isTrue hc =>
    obtain ⟨h1, h2, h3, h4, h5⟩ := hc
    simp only [Option.some.injEq, Prod.mk.injEq] at h
    obtain ⟨hdd, huu, hrr⟩ := h
    subst hdd; subst huu; subst hrr
    refine ⟨?_, h2, h4⟩
    have e1 : l.take 1 ++ l.drop 1 = l := List.take_append_drop 1 l
    have e2 : mdDisp l ++ mdRest1 l = l.drop 1 :=
      List.takeWhile_append_dropWhile (p := fun x => x ≠ ']') (l := l.drop 1)
    have e3 : (mdRest1 l).take 2 ++ (mdRest1 l).drop 2 = mdRest1 l :=
      List.take_append_drop 2 (mdRest1 l)
    have e4 : mdUrl l ++ mdRest3 l = (mdRest1 l).drop 2 :=
      List.takeWhile_append_dropWhile (p := fun x => x ≠ ')')
        (l := (mdRest1 l).drop 2)
    have e5 : (mdRest3 l).take 1 ++ (mdRest3 l).drop 1 = mdRest3 l :=
      List.take_append_drop 1 (mdRest3 l)
    conv_lhs => rw [← e1, h1, ← e2, ← e3, h3, ← e4, ← e5, h5]
    simp

theorem mdLinkMatch_length {l d u r : Str} (h : mdLinkMatch l = some (d, u, r)) :
    r.length < l.length := by
  obtain ⟨he, -, -⟩ := mdLinkMatch_eq h
  subst he
  simp
  omega

theorem scanRichText_nil (acc : Str) :
    scanRichText acc [] = if acc = [] then [] else [plainSeg acc] := by
  rw [scanRichText]

theorem scanRichText_cons_some {c : Char} {cs d u rest : Str}
    (hm : mdLinkMatch (c :: cs) = some (d, u, rest)) (acc : Str) :
    scanRichText acc (c :: cs) =
      (if acc = [] then [] else [plainSeg acc]) ++
        linkSeg d u :: scanRichText [] rest := by
  rw [scanRichText]
  split
  next d' u' rest' hm' =>
    rw [hm] at hm'
    simp only [Option.some.injEq, Prod.mk.injEq] at hm'
    obtain ⟨h1, h2, h3⟩ := hm'
    rw [h1, h2, h3]
  next hm' => rw [hm] at hm'; exact absurd hm' (by simp)

theorem scanRichText_cons_none {c : Char} {cs : Str}
    (hm : mdLinkMatch (c :: cs) = none) (acc : Str) :
    scanRichText acc (c :: cs) = scanRichText (acc ++ [c]) cs := by
  rw [scanRichText]
  split
  next d' u' rest' hm' => rw [hm] at hm'; exact absurd hm' (by simp)
  next => rfl

/-- The scan, flattened through any per-segment rendering that restores
plain segments verbatim and linked segments as their original
`[display](url)` source span, reproduces the pending text plus the
remaining input. -/
theorem scanRichText_flatten (f : RichText → Str)
    (hp : ∀ a, f (plainSeg a) = a)
    (hl : ∀ d u, u ≠ [] →
      f (linkSeg d u) = '[' :: (d ++ ']' :: '(' :: (u ++ [')']))) :
    ∀ l acc, ((scanRichText acc l).map f).flatten = acc ++ l := by
  suffices h : ∀ (n : Nat) (l : Str), l.length = n →
      ∀ acc, ((scanRichText acc l).map f).flatten = acc ++ l by
    intro l acc
    exact h l.length l rfl acc
  intro n
  induction n using Nat.strong_induction_on with
  | _ n ih =>
    intro l hn acc
    match l with
    | [] =>
      rw [scanRichText_nil]
      by_cases ha : acc = [] <;> simp [ha, hp]
    | c :: cs =>
      match hm : mdLinkMatch (c :: cs) with
      | some (d, u, rest) =>
        rw [scanRichText_cons_some hm]
        obtain ⟨he, hd, hu⟩ := mdLinkMatch_eq hm
        have hlen : rest.length < n := by
          subst hn; exact mdLinkMatch_length hm
        have ihr := ih rest.length hlen rest rfl []
        by_cases ha : acc = [] <;>
          simp [ha, hp, hl d u hu, ihr, he, List.append_assoc]
      | none =>
        rw [scanRichText_cons_none hm]
        have hlen : cs.length < n := by subst hn; simp
        have ihr := ih cs.length hlen cs rfl (acc ++ [c])
        rw [ihr]
        simp

/-- When the regexp matches nowhere, the scan degenerates to a single
plain segment holding the pending text plus the whole input. -/
theorem scanRichText_no_match :
    ∀ (l : Str), hasMdLink l = false → ∀ acc,
      scanRichText acc l =
        if acc ++ l = [] then [] else [plainSeg (acc ++ l)] := by
  intro l
  induction l with
  | nil =>
    intro _ acc
    rw [scanRichText_nil]
    simp
  | cons c cs ih =>
    intro h acc
    rw [hasMdLink] at h
    simp only [Bool.or_eq_false_iff] at h
    obtain ⟨h1, h2⟩ := h
    have hm : mdLinkMatch (c :: cs) = none := by
      cases hmm : mdLinkMatch (c :: cs) with
      | none => rfl
      | some v => rw [hmm] at h1; simp at h1
    rw [scanRichText_cons_none hm, ih h2]
    simp

/-- **C1** (counterexample).  The claim states that
`richTextToPlain (plainToRichText t) = t` for strings whose link spans
are all well-formed and non-nested.  It fails at `t = "[b](c)"`:
`plainToRichText` stores the display text in the segment's text content
and leaves `plain_text` empty, while `richTextToPlain` reads only
`plain_text`, so the direct composition yields `"[](c)"`. -/
theorem C1_counterexample :
    richTextToPlain (plainToRichText ("[b](c)".data)) = "[](c)".data ∧
      ("[](c)".data : Str) ≠ "[b](c)".data := by
  constructor
  · simp [plainToRichText, scanRichText, mdLinkMatch, mdDisp, mdRest1,
      mdUrl, mdRest3, richTextToPlain, richTextSegToPlain, linkSeg, plainSeg]
  · decide

/-- **C1** (amended).  Once the server echo populates each segment's
`plain_text` from its text content (`withPlainText`), decoding the
encoding is the identity — for every input string, hence in particular
for strings containing only well-formed, non-nested link spans, and
ill-formed spans come back unchanged as literal text. -/
theorem C1_roundtrip_after_echo (t : Str) :
    richTextToPlain ((plainToRichText t).map withPlainText) = t := by
  unfold plainToRichText
  by_cases ht : t = []
  · simp [ht, richTextToPlain, withPlainText, plainSeg, richTextSegToPlain]
  · rw [if_neg ht]
    have hmain := scanRichText_flatten
      (fun r => richTextSegToPlain (withPlainText r))
      (fun a => by simp [withPlainText, plainSeg, richTextSegToPlain])
      (fun d u hu => by simp [withPlainText, linkSeg, richTextSegToPlain, hu])
      t []
    simpa [richTextToPlain, List.map_map, Function.comp] using hmain

/-- **C10** (counterexample).  The claim states that concatenating the
produced segments' contents — linked segments contributing their
display text — reproduces the input exactly, for every input.  At the
input `"[b](c)"` the produced run is a single linked segment with
content `"b"`, so the concatenation is `"b"`, not the input. -/
theorem C10_counterexample :
    ((plainToRichText ("[b](c)".data)).map segContent).flatten = "b".data ∧
      ("b".data : Str) ≠ "[b](c)".data := by
  constructor
  · simp [plainToRichText, scanRichText, mdLinkMatch, mdDisp, mdRest1,
      mdUrl, mdRest3, segContent, linkSeg, plainSeg]
  · decide

/-- **C10** (amended).  For every input containing no well-formed
markdown link span, `plainToRichText` returns exactly one segment whose
content is the entire input and which carries no link target; and for
every input, concatenating the produced segments' contents with linked
segments rendered back in markdown form `[content](url)` reproduces the
input exactly. -/
theorem C10_segments :
    (∀ t : Str, hasMdLink t = false → plainToRichText t = [plainSeg t]) ∧
      ∀ t : Str, ((plainToRichText t).map segContentMD).flatten = t := by
  constructor
  · intro t ht
    unfold plainToRichText
    by_cases h0 : t = []
    · simp [h0]
    · rw [if_neg h0, scanRichText_no_match t ht []]
      simp [h0]
  · intro t
    unfold plainToRichText
    by_cases h0 : t = []
    · simp [h0, segContentMD, plainSeg]
    · rw [if_neg h0]
      exact scanRichText_flatten segContentMD
        (fun a => by simp [segContentMD, plainSeg])
        (fun d u _ => by simp [segContentMD, linkSeg]) t []

/-- Witness for **C10**: the hypothesis of the first conjunct holds at
the concrete link-free input `"hi"`, and the theorem then evaluates on
it. -/
theorem C10_segments_witness :
    hasMdLink ("hi".data) = false ∧
      plainToRichText ("hi".data) = [plainSeg ("hi".data)] :=
  ⟨by decide, C10_segments.1 ("hi".data) (by decide)⟩

theorem splitFirst_of_not_mem {sep : Char} {p : Str} (hp : sep ∉ p) (f : Str) :
    splitFirst sep (p ++ sep :: f) = some (p, f) := by
  induction p with
  | nil => simp [splitFirst]
  | cons c cs ih =>
    rw [List.mem_cons, not_or] at hp
    have hc : ¬ c = sep := fun h => hp.1 h.symm
    simp [splitFirst, hc, ih hp.2]

theorem splitFirst_eq_none {sep : Char} {s : Str} (hs : sep ∉ s) :
    splitFirst sep s = none := by
  induction s with
  | nil => rfl
  | cons c cs ih =>
    rw [List.mem_cons, not_or] at hs
    have hc : ¬ c = sep := fun h => hs.1 h.symm
    simp [splitFirst, hc, ih hs.2]

/-- **C9**.  For every parent ID `p` free of slashes and every field
name `f` (slashes allowed), decoding the composite key `p ++ "/" ++ f`
yields exactly `(p, f)`, because decoding splits on the first slash
only; and decoding any string with no slash fails with a format
error. -/
theorem C9_parseCompositeID :
    (∀ p f : Str, '/' ∉ p →
        parseCompositeID (p ++ '/' :: f) = .ok (p, f)) ∧
      ∀ s : Str, '/' ∉ s → ∃ e, parseCompositeID s = .error e := by
  constructor
  · intro p f hp
    rw [parseCompositeID, splitFirst_of_not_mem hp]
  · intro s hs
    rw [parseCompositeID, splitFirst_eq_none hs]
    exact ⟨_, rfl⟩

/-- Witness for **C9**: a field name containing a slash survives the
round trip, and a slash-free input is rejected. -/
theorem C9_parseCompositeID_witness :
    ('/' ∉ "db1".data ∧
      parseCompositeID ("db1".data ++ '/' :: "a/b".data) =
        .ok ("db1".data, "a/b".data)) ∧
      ('/' ∉ "db1".data ∧ ∃ e, parseCompositeID ("db1".data) = .error e) :=
  ⟨⟨by decide, C9_parseCompositeID.1 ("db1".data) ("a/b".data) (by decide)⟩,
    ⟨by decide, C9_parseCompositeID.2 ("db1".data) (by decide)⟩⟩

/-- **C8**.  Each enum validator rejects exactly the values outside its
closed set — 10 colors, 39 number formats, 13 rollup functions — with a
message listing the full accepted set, and never rejects null or
unknown values.  (The validators are pure functions on the configured
value, evaluated by the plan phase before any network call.) -/
theorem C8_enum_validators :
    ((∀ s : String, colorValidate (.val s) = none ↔ s ∈ validColors) ∧
      (∀ s : String, s ∉ validColors →
        colorValidate (.val s) = some (enumErrMsg validColors s)) ∧
      colorValidate .null = none ∧ colorValidate .unknown = none ∧
      validColors.length = 10) ∧
    ((∀ s : String, numberFormatValidate (.val s) = none ↔
        s ∈ validNumberFormats) ∧
      (∀ s : String, s ∉ validNumberFormats →
        numberFormatValidate (.val s) = some (enumErrMsg validNumberFormats s)) ∧
      numberFormatValidate .null = none ∧ numberFormatValidate .unknown = none ∧
      validNumberFormats.length = 39) ∧
    (∀ s : String, rollupFunctionValidate (.val s) = none ↔
        s ∈ validRollupFunctions) ∧
      (∀ s : String, s ∉ validRollupFunctions →
        rollupFunctionValidate (.val s) =
          some (enumErrMsg validRollupFunctions s)) ∧
      rollupFunctionValidate .null = none ∧
      rollupFunctionValidate .unknown = none ∧
      validRollupFunctions.length = 13 := by
  refine ⟨⟨fun s => ?_, fun s hs => ?_, rfl, rfl, rfl⟩,
    ⟨fun s => ?_, fun s hs => ?_, rfl, rfl, rfl⟩,
    fun s => ?_, fun s hs => ?_, rfl, rfl, rfl⟩ <;>
    simp [colorValidate, numberFormatValidate, rollupFunctionValidate,
      enumValidate, TFString.isNull, TFString.isUnknown,
      TFString.valueString, *]

/-- Witness for **C8**: the color "magenta" is rejected with the full
list in the message, the color "green" is accepted, and so on for the
other two validators. -/
theorem C8_enum_validators_witness :
    (colorValidate (.val "green") = none) ∧
    ("magenta" ∉ validColors ∧
      colorValidate (.val "magenta") =
        some (enumErrMsg validColors "magenta")) ∧
    ("lightyear" ∉ validNumberFormats ∧
      numberFormatValidate (.val "lightyear") =
        some (enumErrMsg validNumberFormats "lightyear")) ∧
    ("count_some" ∉ validRollupFunctions ∧
      rollupFunctionValidate (.val "count_some") =
        some (enumErrMsg validRollupFunctions "count_some")) :=
  ⟨(C8_enum_validators.1.1 "green").mpr (by decide),
    ⟨by decide, C8_enum_validators.1.2.1 "magenta" (by decide)⟩,
    ⟨by decide, C8_enum_validators.2.1.2.1 "lightyear" (by decide)⟩,
    ⟨by decide, C8_enum_validators.2.2.2.1 "count_some" (by decide)⟩⟩

/-- **C2** (counterexample).  The claim fails on both paths it covers:
the listing path renders a date at exactly midnight UTC as
2024-01-15T00:00:00Z, not as the bare date; and the read path's
formatNotionDate renders 2024-01-15T00:00:00+05:00 — not midnight UTC —
as the bare date, because it tests the wall clock, not UTC. -/
theorem C2_counterexample :
    (propertyToStringDate
        (some { start := some ⟨2024, 1, 15, 0, 0, 0, 0, 0⟩ }) =
          "2024-01-15T00:00:00Z" ∧
      "2024-01-15T00:00:00Z" ≠ "2024-01-15") ∧
    (¬ isMidnightUTC ⟨2024, 1, 15, 0, 0, 0, 0, 300⟩ ∧
      formatNotionDate ⟨2024, 1, 15, 0, 0, 0, 0, 300⟩ = "2024-01-15") := by
  refine ⟨⟨?_, by decide⟩, by decide, ?_⟩ <;> decide

theorem formatRFC3339_ne_formatDateOnly (t : GoTime) :
    formatRFC3339 t ≠ formatDateOnly t := by
  intro h
  have hlen := congrArg String.length h
  simp only [formatRFC3339, String.length_append] at hlen
  have hz : 0 < (formatZone t.offsetMinutes).length := by
    unfold formatZone
    split
    · decide
    · have h1 : (0 : Nat) < (":" : String).length := by decide
      simp only [String.length_append]
      omega
  omega

/-- **C2** (amended).  The resource read path's formatNotionDate
renders a bare 2006-01-02 date exactly when the value's wall-clock time
components — hour, minute, second, nanosecond in the value's own
location, not in UTC — are all zero, and full RFC3339 otherwise; the
entries listing path instead renders every present date value in full
RFC3339 with no midnight special case. -/
theorem C2_date_rendering (t : GoTime) :
    (formatNotionDate t = formatDateOnly t ↔
      t.hour = 0 ∧ t.minute = 0 ∧ t.second = 0 ∧ t.nanosecond = 0) ∧
    (¬ (t.hour = 0 ∧ t.minute = 0 ∧ t.second = 0 ∧ t.nanosecond = 0) →
      formatNotionDate t = formatRFC3339 t) ∧
    ∀ d : DateObject, d.start = some t →
      propertyToStringDate (some d) = formatRFC3339 t := by
  refine ⟨⟨fun h => ?_, fun h => ?_⟩, fun h => ?_, fun d hd => ?_⟩
  · by_contra hmid
    rw [formatNotionDate, if_neg hmid] at h
    exact formatRFC3339_ne_formatDateOnly t h
  · rw [formatNotionDate, if_pos h]
  · rw [formatNotionDate, if_neg h]
  · rw [propertyToStringDate, hd]

/-- Witness for **C2**: the theorem evaluated at the concrete
non-midnight instant 2024-01-15T10:30:00Z and at a date object holding
it. -/
theorem C2_date_rendering_witness :
    formatNotionDate ⟨2024, 1, 15, 10, 30, 0, 0, 0⟩ =
        formatRFC3339 ⟨2024, 1, 15, 10, 30, 0, 0, 0⟩ ∧
      propertyToStringDate (some { start := some ⟨2024, 1, 15, 10, 30, 0, 0, 0⟩ }) =
        formatRFC3339 ⟨2024, 1, 15, 10, 30, 0, 0, 0⟩ :=
  ⟨(C2_date_rendering ⟨2024, 1, 15, 10, 30, 0, 0, 0⟩).2.1 (by decide),
    (C2_date_rendering ⟨2024, 1, 15, 10, 30, 0, 0, 0⟩).2.2
      { start := some ⟨2024, 1, 15, 10, 30, 0, 0, 0⟩ } rfl⟩

/-- **C3**.  For every input model: the five structural kinds always
fail with the does-not-support-updates error; every other kind of the
supported enumeration always yields an update request and no error; and
any kind outside the enumeration fails with the unsupported-block-type
error. -/
theorem C3_buildBlockUpdateRequest (m : BlockResourceModel) :
    (m.type.valueString ∈ immutableBlockKinds →
      buildBlockUpdateRequest m =
        .error ("block type \"" ++ m.type.valueString ++ "\" does not support updates")) ∧
    (m.type.valueString ∈ mutableBlockKinds →
      ∃ r, buildBlockUpdateRequest m = .ok r) ∧
    (m.type.valueString ∉ immutableBlockKinds →
      m.type.valueString ∉ mutableBlockKinds →
      buildBlockUpdateRequest m =
        .error ("unsupported block type: " ++ m.type.valueString)) := by
  refine ⟨fun h => ?_, fun h => ?_, fun h1 h2 => ?_⟩
  · simp only [immutableBlockKinds, List.mem_cons, List.not_mem_nil, or_false] at h
    rcases h with h | h | h | h | h <;>
      simp [buildBlockUpdateRequest, h]
  · simp only [mutableBlockKinds, List.mem_cons, List.not_mem_nil, or_false] at h
    rcases h with h | h | h | h | h | h | h | h | h | h | h | h | h | h | h <;>
      simp [buildBlockUpdateRequest, h]
  · simp only [immutableBlockKinds, List.mem_cons, List.not_mem_nil, or_false,
      not_or] at h1
    simp only [mutableBlockKinds, List.mem_cons, List.not_mem_nil, or_false,
      not_or] at h2
    obtain ⟨d1, d2, d3, d4, d5⟩ := h1
    obtain ⟨m1, m2, m3, m4, m5, m6, m7, m8, m9, m10, m11, m12, m13, m14, m15⟩ := h2
    simp [buildBlockUpdateRequest, m1, m2, m3, m4, m5, m6, m7, m8, m9, m10,
      m11, m12, m13, m14, m15, d1, d2, d3, d4, d5]

/-- Witness for **C3**: concrete models of a structural kind, a
mutable kind and an unknown kind take the three branches. -/
theorem C3_buildBlockUpdateRequest_witness :
    (("divider" : String) ∈ immutableBlockKinds ∧
      buildBlockUpdateRequest { type := .val "divider" } =
        .error "block type \"divider\" does not support updates") ∧
    (("paragraph" : String) ∈ mutableBlockKinds ∧
      ∃ r, buildBlockUpdateRequest { type := .val "paragraph" } = .ok r) ∧
    (("marquee" : String) ∉ immutableBlockKinds ∧
      ("marquee" : String) ∉ mutableBlockKinds ∧
      buildBlockUpdateRequest { type := .val "marquee" } =
        .error "unsupported block type: marquee") := by
  refine ⟨⟨by decide, ?_⟩, ⟨by decide, ?_⟩, ⟨by decide, by decide, ?_⟩⟩
  · exact (C3_buildBlockUpdateRequest { type := .val "divider" }).1 (by decide)
  · exact (C3_buildBlockUpdateRequest { type := .val "paragraph" }).2.1 (by decide)
  · exact (C3_buildBlockUpdateRequest { type := .val "marquee" }).2.2
      (by decide) (by decide)

/-- **C7**.  Rendering an entry property value for the listing is total
and never fails: a value whose type tag is outside the recognized
enumeration renders as the empty string, and every recognized kind with
all inner payloads absent renders as a defined string — empty, except
"false" for checkbox. -/
theorem C7_rawPropertyToString :
    (∀ p : RawProperty, p.type ∉ recognizedRawTypes →
        rawPropertyToString p = "") ∧
      ∀ ty ∈ recognizedRawTypes,
        rawPropertyToString { type := ty } =
          if ty = "checkbox" then "false" else "" := by
  constructor
  · intro p hp
    simp only [recognizedRawTypes, List.mem_cons, List.not_mem_nil, or_false,
      not_or] at hp
    obtain ⟨n1, n2, n3, n4, n5, n6, n7, n8, n9, n10, n11, n12, n13, n14,
      n15, n16, n17, n18, n19, n20, n21⟩ := hp
    simp [rawPropertyToString, n1, n2, n3, n4, n5, n6, n7, n8, n9, n10,
      n11, n12, n13, n14, n15, n16, n17, n18, n19, n20, n21]
  · intro ty hty
    fin_cases hty <;> rfl

/-- Witness for **C7**: an unrecognized "place" value renders empty,
and a checkbox with absent payload renders "false". -/
theorem C7_rawPropertyToString_witness :
    (("place" : String) ∉ recognizedRawTypes ∧
      rawPropertyToString { type := "place" } = "") ∧
    (("checkbox" : String) ∈ recognizedRawTypes ∧
      rawPropertyToString { type := "checkbox" } = "false") := by
  refine ⟨⟨by decide, C7_rawPropertyToString.1 { type := "place" } (by decide)⟩,
    ⟨by decide, ?_⟩⟩
  have h := C7_rawPropertyToString.2 "checkbox" (by decide)
  simpa using h

theorem removedKeys_eq_filter (s p : TFValMap α) :
    removedKeys s p = s.keys.filter (fun k => !(p.keys.contains k)) := by
  cases s <;> cases p <;> rfl

theorem entryBucketEmissions_keys (s p : DatabaseEntryResourceModel)
    (b : EntryBucket) :
    (entryBucketEmissions s p b).map Prod.fst =
      (entryBucketKeys s b).filter
        (fun k => !((entryBucketKeys p b).contains k)) := by
  cases b <;>
    simp [entryBucketEmissions, entryBucketKeys, removedKeys_eq_filter,
      List.map_map, Function.comp_def]

theorem count_filter_nodup (l : List String) (p : String → Bool) (a : String)
    (hd : l.Nodup) :
    (l.filter p).count a = if a ∈ l ∧ p a = true then 1 else 0 := by
  by_cases hp : p a = true
  · rw [List.count_filter hp]
    by_cases hm : a ∈ l
    · rw [List.count_eq_one_of_mem hd hm, if_pos ⟨hm, hp⟩]
    · rw [List.count_eq_zero.mpr hm, if_neg (fun hc => hm hc.1)]
  · rw [List.count_eq_zero.mpr (fun hc => hp (List.of_mem_filter hc)),
      if_neg (fun hc => hp hc.2)]

theorem find_map_overwrite_ne {k1 k : String} (hne : k1 ≠ k) (v : NotionProperty) :
    ∀ m : NotionProperties,
      (m.map (fun e => if e.1 == k1 then (k1, v) else e)).find?
          (fun e => e.1 == k) =
        m.find? (fun e => e.1 == k) := by
  intro m
  induction m with
  | nil => rfl
  | cons a m ih =>
    by_cases ha : a.1 = k1
    · have hak : (a.1 == k) = false := by
        simp [ha]
        exact hne
      simp only [List.map_cons, List.find?, ha, beq_self_eq_true, if_pos rfl, hak]
      have hk1k : (k1 == k) = false := by simpa using hne
      rw [if_pos (by simp [ha])]
      simp only [List.find?, hk1k, hak]
      exact ih
    · rw [List.map_cons, if_neg (by simpa using ha)]
      simp only [List.find?]
      cases hak : (a.1 == k) with
      | true => rfl
      | false => exact ih

theorem propsGet_set_ne {k1 k : String} (hne : k1 ≠ k) (v : NotionProperty)
    (m : NotionProperties) :
    propsGet (propsSet m k1 v) k = propsGet m k := by
  unfold propsSet propsGet
  by_cases hany : m.any (fun e => e.1 == k1)
  · rw [if_pos hany, find_map_overwrite_ne hne]
  · rw [if_neg hany, List.find?_append]
    have hb : (k1 == k) = false := by simpa using hne
    have : List.find? (fun e => e.1 == k) [(k1, v)] = none := by
      simp [List.find?, hb]
    rw [this, Option.or_none]

theorem propsGet_foldl_set_ne {k : String} :
    ∀ (ems : List (String × NotionProperty)) (props : NotionProperties),
      (∀ e ∈ ems, e.1 ≠ k) →
      propsGet (ems.foldl (fun m e => propsSet m e.1 e.2) props) k =
        propsGet props k := by
  intro ems
  induction ems with
  | nil => intro props _; rfl
  | cons e ems ih =>
    intro props h
    rw [List.foldl_cons, ih _ (fun e2 he2 => h e2 (List.mem_cons_of_mem e he2)),
      propsGet_set_ne (h e (List.mem_cons_self e ems)) e.2 props]

/-- **C4**.  For every prior state and plan: each bucket emits exactly
one default patch entry per key present in the prior bucket and absent
from the plan's same bucket, and zero entries for every other key; the
emitted entry carries the bucket's explicit empty/default value; and a
key present in no prior-state bucket is left untouched in the outgoing
properties map. -/
theorem C4_clearRemoved (state plan : DatabaseEntryResourceModel)
    (b : EntryBucket) (k : String)
    (hnodup : (entryBucketKeys state b).Nodup) :
    (((entryBucketEmissions state plan b).map Prod.fst).count k =
      if k ∈ entryBucketKeys state b ∧ k ∉ entryBucketKeys plan b
      then 1 else 0) ∧
    (k ∈ entryBucketKeys state b → k ∉ entryBucketKeys plan b →
      (k, entryBucketDefault b) ∈ entryBucketEmissions state plan b) ∧
    ∀ props : NotionProperties,
      (∀ b2 : EntryBucket, k ∉ entryBucketKeys state b2) →
      propsGet (clearRemovedProperties state plan props) k = propsGet props k := by
  refine ⟨?_, fun hmem habs => ?_, fun props huntouched => ?_⟩
  · rw [entryBucketEmissions_keys,
      count_filter_nodup _ _ _ hnodup]
    by_cases hc : k ∈ entryBucketKeys state b ∧ k ∉ entryBucketKeys plan b
    · rw [if_pos hc, if_pos ⟨hc.1, by simpa [List.elem_iff] using hc.2⟩]
    · rw [if_neg hc, if_neg]
      intro hc2
      exact hc ⟨hc2.1, by simpa [List.elem_iff] using hc2.2⟩
  · have hk : k ∈ (entryBucketEmissions state plan b).map Prod.fst := by
      rw [entryBucketEmissions_keys]
      refine List.mem_filter.mpr ⟨hmem, by simpa [List.elem_iff] using habs⟩
    obtain ⟨e, he, hek⟩ := List.mem_map.mp hk
    have : e = (k, entryBucketDefault b) := by
      have hsnd : e.2 = entryBucketDefault b := by
        cases b <;>
          · simp only [entryBucketEmissions, List.mem_map] at he
            obtain ⟨k2, -, hk2⟩ := he
            rw [← hk2]
      rw [← hek, ← hsnd]
    rw [← this]
    exact he
  · unfold clearRemovedProperties
    refine propsGet_foldl_set_ne _ props (fun e he => ?_)
    rw [List.mem_flatten] at he
    obtain ⟨l, hl, hel⟩ := he
    obtain ⟨b2, -, hb2⟩ := List.mem_map.mp hl
    intro hek
    have hkeys : e.1 ∈ (entryBucketEmissions state plan b2).map Prod.fst :=
      List.mem_map_of_mem Prod.fst (hb2 ▸ hel)
    rw [entryBucketEmissions_keys] at hkeys
    exact huntouched b2 (hek ▸ List.mem_of_mem_filter hkeys)

/-- Witness for **C4**: a prior state whose rich-text bucket holds keys
a and b while the plan keeps only a emits exactly one default entry for
b and none for a, and a key never managed is left untouched. -/
theorem C4_clearRemoved_witness :
    (((entryBucketEmissions
        { richTextProperties := .val [("a", "x"), ("b", "y")] }
        { richTextProperties := .val [("a", "x")] } .richTextB).map
          Prod.fst).count "b" = 1) ∧
    (((entryBucketEmissions
        { richTextProperties := .val [("a", "x"), ("b", "y")] }
        { richTextProperties := .val [("a", "x")] } .richTextB).map
          Prod.fst).count "a" = 0) ∧
    propsGet (clearRemovedProperties
        { richTextProperties := .val [("a", "x"), ("b", "y")] }
        { richTextProperties := .val [("a", "x")] }
        [("z", .urlProp "u")]) "z" =
      propsGet [("z", .urlProp "u")] "z" := by
  refine ⟨?_, ?_, ?_⟩
  · have h := (C4_clearRemoved
      { richTextProperties := .val [("a", "x"), ("b", "y")] }
      { richTextProperties := .val [("a", "x")] } .richTextB "b" (by decide)).1
    simpa using h
  · have h := (C4_clearRemoved
      { richTextProperties := .val [("a", "x"), ("b", "y")] }
      { richTextProperties := .val [("a", "x")] } .richTextB "a" (by decide)).1
    simpa using h
  · exact (C4_clearRemoved
      { richTextProperties := .val [("a", "x"), ("b", "y")] }
      { richTextProperties := .val [("a", "x")] } .richTextB "z" (by decide)).2.2
      [("z", .urlProp "u")] (by intro b2; cases b2 <;> decide)

/-- **C5**.  On every tracked resource — block, page, database,
database entry — a Read whose fetched remote object reports
archived=true drops the resource from tracked state and adds no error
diagnostic. -/
theorem C5_archived_read_removes
    (bst : BlockResourceModel) (blk : ApiBlock)
    (pst : PageResourceModel) (pg : ApiPage)
    (dst : DatabaseResourceModel) (db : ApiDatabase)
    (est : DatabaseEntryResourceModel) (ep : ApiPage) :
    (blk.archived = true → blockRead bst (.ok blk) = .removed) ∧
    (pg.archived = true → pageRead pst (.ok pg) = .removed) ∧
    (db.archived = true → databaseRead dst (.ok db) = .removed) ∧
    (ep.archived = true → entryRead est (.ok ep) = .removed) := by
  refine ⟨fun h => ?_, fun h => ?_, fun h => ?_, fun h => ?_⟩
  · simp [blockRead, h]
  · simp [pageRead, h]
  · simp [databaseRead, h]
  · simp [entryRead, h]

/-- Witness for **C5**: concrete archived remote objects of all four
kinds are dropped, never reported as errors. -/
theorem C5_archived_read_removes_witness :
    blockRead {} (.ok { id := "b1", archived := true, variant := .divider }) =
        .removed ∧
      pageRead {} (.ok { id := "p1", archived := true }) = .removed ∧
      databaseRead {} (.ok { id := "d1", archived := true }) = .removed ∧
      entryRead {} (.ok { id := "e1", archived := true }) = .removed :=
  ⟨(C5_archived_read_removes {} { id := "b1", archived := true, variant := .divider }
      {} { id := "p1", archived := true } {} { id := "d1", archived := true }
      {} { id := "e1", archived := true }).1 rfl,
    (C5_archived_read_removes {} { id := "b1", archived := true, variant := .divider }
      {} { id := "p1", archived := true } {} { id := "d1", archived := true }
      {} { id := "e1", archived := true }).2.1 rfl,
    (C5_archived_read_removes {} { id := "b1", archived := true, variant := .divider }
      {} { id := "p1", archived := true } {} { id := "d1", archived := true }
      {} { id := "e1", archived := true }).2.2.1 rfl,
    (C5_archived_read_removes {} { id := "b1", archived := true, variant := .divider }
      {} { id := "p1", archived := true } {} { id := "d1", archived := true }
      {} { id := "e1", archived := true }).2.2.2 rfl⟩

theorem readParentIntoState_frame (p : Option NotionParent)
    (st : BlockResourceModel) :
    (readParentIntoState p st).after = st.after ∧
      (readParentIntoState p st).syncedFrom = st.syncedFrom := by
  cases p with
  | none => exact ⟨rfl, rfl⟩
  | some q =>
    simp only [readParentIntoState]
    split_ifs <;> exact ⟨rfl, rfl⟩

theorem readVariantIntoState_after (v : BlockVariant)
    (st : BlockResourceModel) :
    (readVariantIntoState v st).after = st.after := by
  cases v <;> try rfl
  case callout rt icon color =>
    rcases icon with - | ⟨ty, emoji⟩
    · rfl
    · cases emoji <;> rfl
  case syncedBlock sf => cases sf <;> rfl

theorem readVariantIntoState_syncedFrom (v : BlockVariant)
    (st : BlockResourceModel) (h : v.isSyncedBlock = false) :
    (readVariantIntoState v st).syncedFrom = st.syncedFrom := by
  cases v <;> try rfl
  case callout rt icon color =>
    rcases icon with - | ⟨ty, emoji⟩
    · rfl
    · cases emoji <;> rfl
  case syncedBlock sf => simp [BlockVariant.isSyncedBlock] at h

theorem blockReadApply_after (prior : BlockResourceModel) (blk : ApiBlock) :
    (blockReadApply prior blk).after = prior.after := by
  unfold blockReadApply
  dsimp only
  split_ifs <;> rfl

theorem blockReadApply_syncedFrom (prior : BlockResourceModel)
    (blk : ApiBlock) (h : blk.variant.isSyncedBlock = false) :
    (blockReadApply prior blk).syncedFrom = prior.syncedFrom := by
  have hs : (readBlockIntoState blk prior).syncedFrom = prior.syncedFrom := by
    unfold readBlockIntoState
    rw [readVariantIntoState_syncedFrom _ _ h,
      (readParentIntoState_frame _ _).2]
  unfold blockReadApply
  dsimp only
  split_ifs <;> simp [hs]

/-- **C6**.  For every block Read and Update, the stored insertion
marker of the resulting state equals the previously stored value
regardless of the inbound block, and the stored synced-source
reference equals the previously stored value whenever the inbound
variant carries no synced-source concept: neither field is overwritten
with an empty value because the server omitted it. -/
theorem C6_preserved_markers (st : BlockResourceModel) (blk : ApiBlock) :
    (∀ st2, blockRead st (.ok blk) = .updated st2 → st2.after = st.after) ∧
    (blk.variant.isSyncedBlock = false →
      ∀ st2, blockRead st (.ok blk) = .updated st2 →
        st2.syncedFrom = st.syncedFrom) ∧
    (∀ st2, blockUpdate st (.ok blk) = .updated st2 → st2.after = st.after) ∧
    (blk.variant.isSyncedBlock = false →
      ∀ st2, blockUpdate st (.ok blk) = .updated st2 →
        st2.syncedFrom = st.syncedFrom) := by
  have hread : ∀ st2, blockRead st (.ok blk) = .updated st2 →
      st2 = blockReadApply st blk := by
    intro st2 h
    by_cases harch : blk.archived = true
    · simp [blockRead, harch] at h
    · simp only [blockRead, harch, Bool.false_eq_true, if_false,
        CrudOutcome.updated.injEq] at h
      exact h.symm
  have hupd : ∀ st2, blockUpdate st (.ok blk) = .updated st2 →
      st2 = blockReadApply st blk := by
    intro st2 h
    unfold blockUpdate at h
    cases hb : buildBlockUpdateRequest st with
    | error e => rw [hb] at h; simp at h
    | ok r =>
      rw [hb] at h
      simp only [CrudOutcome.updated.injEq] at h
      exact h.symm
  refine ⟨fun st2 h => ?_, fun hsync st2 h => ?_, fun st2 h => ?_,
    fun hsync st2 h => ?_⟩
  · rw [hread st2 h]; exact blockReadApply_after st blk
  · rw [hread st2 h]; exact blockReadApply_syncedFrom st blk hsync
  · rw [hupd st2 h]; exact blockReadApply_after st blk
  · rw [hupd st2 h]; exact blockReadApply_syncedFrom st blk hsync

/-- Witness for **C6**: a concrete equation block, read and updated
against a prior state holding an insertion marker and a synced-source
reference, keeps both stored values. -/
theorem C6_preserved_markers_witness :
    (blockReadApply
        { after := .val "aft", syncedFrom := .val "src", type := .val "equation" }
        { id := "abc-def", variant := .equation "x+1" }).after =
      TFString.val "aft" ∧
    (blockReadApply
        { after := .val "aft", syncedFrom := .val "src", type := .val "equation" }
        { id := "abc-def", variant := .equation "x+1" }).syncedFrom =
      TFString.val "src" ∧
    (BlockVariant.equation "x+1").isSyncedBlock = false ∧
    blockUpdate
        { after := .val "aft", syncedFrom := .val "src", type := .val "equation" }
        (.ok { id := "abc-def", variant := .equation "x+1" }) =
      .updated (blockReadApply
        { after := .val "aft", syncedFrom := .val "src", type := .val "equation" }
        { id := "abc-def", variant := .equation "x+1" }) :=
  ⟨(C6_preserved_markers
      { after := .val "aft", syncedFrom := .val "src", type := .val "equation" }
      { id := "abc-def", variant := .equation "x+1" }).1 _ rfl,
    (C6_preserved_markers
      { after := .val "aft", syncedFrom := .val "src", type := .val "equation" }
      { id := "abc-def", variant := .equation "x+1" }).2.1 rfl _ rfl,
    rfl, by decide⟩

end Notion
